import Mathlib

/-!
Shallow embedding of the upload-coordination subsystem of the `@vainjs/logger`
client-side logging library.

Modelled source files:
* `src/core/logger.ts` — the `Logger` facade (`log`, `forceUpload`, `updateConfig`);
* `src/uploader/uploadManager.ts` — the `UploadManager` (in-flight guard,
  `handleNewLog`, `uploadImmediately`, `uploadPendingLogs`, `forceUpload`);
* `src/uploader/uploader.ts` — the `LogUploader` remote sink;
* `src/storage/indexedDB.ts` — the `IndexedDBStorage` durable store, embedded
  as pure operations over a list of records (IndexedDB keys the store on `id`);
* `src/utils/idle.ts` — the `IdleDetector`;
* `src/types/config.ts` — `DEFAULT_CONFIG` / `mergeConfig`.

Machine conventions: JavaScript numbers that the code only adds, subtracts and
compares (timestamps, batch sizes, loop indices) are embedded as `Int`;
asynchronous methods become pure functions threading the store state, with
network and storage outcomes injected as explicit parameters; a rejected
promise becomes an `Except` error; the one unbounded `for` loop
(`uploadPendingLogs`) takes an explicit fuel argument, `none` meaning the loop
has not finished within the allotted iterations.
-/

namespace VainLogger

/-- `LogLevel` from `src/types/index.ts`. -/
inductive LogLevel
  | info
  | warn
  | error
  | debug
  | trace
deriving DecidableEq, Repr

/-- `UploadStrategy` from `src/types/index.ts`. -/
inductive UploadStrategy
  | idle
  | immediate
deriving DecidableEq, Repr

/-- `LogEntry` from `src/types/index.ts`; `data` is a string-keyed mapping
whose values are opaque to the whole subsystem, embedded as strings. -/
structure LogEntry where
  id : String
  level : LogLevel
  title : String
  data : List (String × String)
  timestamp : Int
  uploaded : Bool
deriving DecidableEq, Repr

/-- `LoggerConfig` after `mergeConfig` (`Required<LoggerConfig>`). -/
structure LoggerConfig where
  serverUrl : String
  debugMode : Bool
  uploadLogs : Bool
  logExpiration : Int
  uploadStrategy : UploadStrategy
  batchSize : Int
deriving DecidableEq, Repr

/-- `DEFAULT_CONFIG` from `src/types/config.ts`. -/
def DEFAULT_CONFIG : LoggerConfig :=
  { serverUrl := ""
    debugMode := true
    uploadLogs := true
    logExpiration := 3
    uploadStrategy := .idle
    batchSize := 50 }

/-- A `Partial<LoggerConfig>` argument: absent keys are `none`. -/
structure ConfigUpdate where
  serverUrl : Option String := none
  debugMode : Option Bool := none
  uploadLogs : Option Bool := none
  logExpiration : Option Int := none
  uploadStrategy : Option UploadStrategy := none
  batchSize : Option Int := none
deriving DecidableEq, Repr

/-- Object spread `{ ...cfg, ...u }` of a full config with a partial one, as
performed by `mergeConfig` in `Logger.updateConfig` (`src/core/logger.ts`,
where the first spread argument is already a `Required<LoggerConfig>`). -/
def spreadConfig (cfg : LoggerConfig) (u : ConfigUpdate) : LoggerConfig :=
  { serverUrl := u.serverUrl.getD cfg.serverUrl
    debugMode := u.debugMode.getD cfg.debugMode
    uploadLogs := u.uploadLogs.getD cfg.uploadLogs
    logExpiration := u.logExpiration.getD cfg.logExpiration
    uploadStrategy := u.uploadStrategy.getD cfg.uploadStrategy
    batchSize := u.batchSize.getD cfg.batchSize }

namespace IndexedDBStorage

/-- `IndexedDBStorage.getUnuploadedLogs` (`src/storage/indexedDB.ts`):
`getAll` then filter on records whose `uploaded` flag is not truthy. -/
def getUnuploadedLogs (db : List LogEntry) : List LogEntry :=
  db.filter (fun log => !log.uploaded)

/-- `IndexedDBStorage.markAsUploaded` (`src/storage/indexedDB.ts`): for each
id, `get` the record by key and, when found, `put` it back with
`uploaded = true`; an id with no matching record is skipped.  Since the store
is keyed on `id`, this is exactly a pointwise update of the records whose id
occurs in `logIds`. -/
def markAsUploaded (logIds : List String) (db : List LogEntry) : List LogEntry :=
  db.map (fun log => if log.id ∈ logIds then { log with uploaded := true } else log)

/-- `IndexedDBStorage.cleanupExpiredLogs` (`src/storage/indexedDB.ts`):
deletes via a cursor over `IDBKeyRange.upperBound(expirationTime)` on the
`timestamp` index.  `IDBKeyRange.upperBound` with the default `open = false`
is an inclusive bound, so exactly the records with
`timestamp ≤ Date.now() - expirationDays * 24 * 60 * 60 * 1000` are deleted. -/
def cleanupExpiredLogs (expirationDays : Int) (now : Int) (db : List LogEntry) :
    List LogEntry :=
  let expirationTime := now - expirationDays * 24 * 60 * 60 * 1000
  db.filter (fun log => decide (expirationTime < log.timestamp))

/-- `IndexedDBStorage.saveLog` (`src/storage/indexedDB.ts`): `store.add`
rejects when the key already exists or the write fails; the injected flag
`saveOk` stands for the underlying I/O outcome. -/
def saveLog (saveOk : Bool) (log : LogEntry) (db : List LogEntry) :
    Except String (List LogEntry) :=
  if !saveOk then .error "Failed to save log"
  else if db.any (fun r => r.id == log.id) then .error "Failed to save log"
  else .ok (db ++ [log])

end IndexedDBStorage

namespace LogUploader

/-- `LogUploader.uploadLogs` (`src/uploader/uploader.ts`): an empty
`serverUrl` is falsy, so the method warns and reports failure with no I/O; an
empty batch succeeds with no I/O; otherwise the outcome of the `fetch` (2xx
response versus non-success status or thrown transport error, both collapsed
to `false`) is injected as `net`. -/
def uploadLogs (serverUrl : String) (net : List LogEntry → Bool)
    (logs : List LogEntry) : Bool :=
  if serverUrl == "" then false
  else if logs.length == 0 then true
  else net logs

end LogUploader

/-- `Array.prototype.slice(start, stop)` per ECMA-262 (used by
`uploadPendingLogs` as `unuploadedLogs.slice(i, i + this.batchSize)`):
negative arguments count from the end, both are clamped to `[0, length]`, and
the elements from the normalized start (inclusive) to the normalized stop
(exclusive) are returned. -/
def jsSlice (xs : List α) (start stop : Int) : List α :=
  let len : Int := xs.length
  let s := if start < 0 then max (len + start) 0 else min start len
  let e := if stop < 0 then max (len + stop) 0 else min stop len
  (xs.drop s.toNat).take (e - s).toNat

namespace UploadManager

/-- The `for (let i = 0; i < unuploadedLogs.length; i += this.batchSize)` loop
of `UploadManager.uploadPendingLogs` (`src/uploader/uploadManager.ts`).  The
state is the loop index `i`, the store contents `db`, and `sent`, the batches
passed to `uploader.uploadLogs` so far (in order).  On batch success the
batch's ids are marked uploaded and the loop continues; on failure it breaks.
`fuel` bounds the number of iterations; `none` means the loop is still running
when the fuel runs out — the embedding's rendering of non-termination. -/
def sweepLoop (serverUrl : String) (net : List LogEntry → Bool) (batchSize : Int)
    (pending : List LogEntry) :
    Nat → Int → List LogEntry → List (List LogEntry) →
    Option (List LogEntry × List (List LogEntry))
  | fuel, i, db, sent =>
    if i < (pending.length : Int) then
      match fuel with
      | 0 => none
      | fuel' + 1 =>
        let batch := jsSlice pending i (i + batchSize)
        if LogUploader.uploadLogs serverUrl net batch then
          sweepLoop serverUrl net batchSize pending fuel' (i + batchSize)
            (IndexedDBStorage.markAsUploaded (batch.map (fun log => log.id)) db)
            (sent ++ [batch])
        else
          some (db, sent ++ [batch])
    else
      some (db, sent)

/-- `UploadManager.uploadPendingLogs` (`src/uploader/uploadManager.ts`) as run
by a single attempt that has passed the in-flight guard (the guard itself is
modelled by the machine below): read the un-uploaded snapshot, return at once
when it is empty, otherwise run the batching loop.  The result is the final
store contents paired with the list of batches handed to the uploader. -/
def uploadPendingLogs (serverUrl : String) (net : List LogEntry → Bool)
    (batchSize : Int) (fuel : Nat) (db : List LogEntry) :
    Option (List LogEntry × List (List LogEntry)) :=
  let unuploadedLogs := IndexedDBStorage.getUnuploadedLogs db
  if unuploadedLogs.length == 0 then some (db, [])
  else sweepLoop serverUrl net batchSize unuploadedLogs fuel 0 db []

/-- `UploadManager.uploadImmediately` (`src/uploader/uploadManager.ts`), body
of one attempt past the guard: upload the singleton batch, mark it uploaded on
success; every error is caught inside the method. -/
def uploadImmediately (serverUrl : String) (net : List LogEntry → Bool)
    (logs : List LogEntry) (db : List LogEntry) :
    List LogEntry × List (List LogEntry) :=
  if LogUploader.uploadLogs serverUrl net logs then
    (IndexedDBStorage.markAsUploaded (logs.map (fun log => log.id)) db, [logs])
  else
    (db, [logs])

/-- `UploadManager.handleNewLog` (`src/uploader/uploadManager.ts`): save the
record first (a save failure rejects and propagates to the caller), then under
the `immediate` strategy submit it as a singleton batch; under `idle` do
nothing further. -/
def handleNewLog (serverUrl : String) (net : List LogEntry → Bool)
    (strategy : UploadStrategy) (saveOk : Bool) (log : LogEntry)
    (db : List LogEntry) :
    Except String (List LogEntry × List (List LogEntry)) :=
  match IndexedDBStorage.saveLog saveOk log db with
  | .error e => .error e
  | .ok db' =>
    match strategy with
    | .immediate => .ok (uploadImmediately serverUrl net [log] db')
    | .idle => .ok (db', [])

/-- `UploadManager.forceUpload` (`src/uploader/uploadManager.ts`): exactly
`uploadPendingLogs`. -/
def forceUpload (serverUrl : String) (net : List LogEntry → Bool)
    (batchSize : Int) (fuel : Nat) (db : List LogEntry) :
    Option (List LogEntry × List (List LogEntry)) :=
  uploadPendingLogs serverUrl net batchSize fuel db

end UploadManager

namespace Logger

/-- The observable outcome of one `Logger.log` call (`src/core/logger.ts`):
what `printToConsole` was handed (if anything), the resulting store contents,
and the batches handed to the uploader. -/
structure LogResult where
  printed : Option LogEntry
  db : List LogEntry
  sent : List (List LogEntry)
deriving DecidableEq, Repr

/-- The error a `Logger` call can reject with.  `Logger.init` rethrows the
store-open failure (`src/core/logger.ts`, `init`'s catch block ends in
`throw error`); everything downstream is caught. -/
inductive LogError
  | storageInit
deriving DecidableEq, Repr

/-- `Logger.log` (`src/core/logger.ts`): lazily initialize (an init failure
propagates — the `await this.init()` at the top of `log` is outside the
try/catch), drop `debug`/`trace` in non-debug mode before any record is
created, build the entry, print it per the debug-mode rules, then run the
storage/upload path inside the catch-all.  `initialized`, `initOk` and
`saveOk` inject the logger's init state, the store-open outcome, and the
store-write outcome; `net` injects the sink outcome; `newId`/`now` inject
`generateLogId()`/`getCurrentTimestamp()`. -/
def logRun (cfg : LoggerConfig) (initialized initOk saveOk : Bool)
    (net : List LogEntry → Bool) (db : List LogEntry)
    (newId : String) (now : Int) (level : LogLevel) (title : String)
    (data : List (String × String)) : Except LogError LogResult :=
  if !initialized && !initOk then .error .storageInit
  else if !cfg.debugMode && (level == .debug || level == .trace) then
    .ok { printed := none, db := db, sent := [] }
  else
    let logEntry : LogEntry :=
      { id := newId, level := level, title := title, data := data
        timestamp := now, uploaded := false }
    let printed :=
      if cfg.debugMode then some logEntry
      else if level != .debug && level != .trace then some logEntry
      else none
    let dbSent :=
      if cfg.uploadLogs then
        match UploadManager.handleNewLog cfg.serverUrl net cfg.uploadStrategy
            saveOk logEntry db with
        | .error _ => (db, [])
        | .ok r => r
      else
        match IndexedDBStorage.saveLog saveOk logEntry db with
        | .error _ => (db, [])
        | .ok db' => (db', [])
    .ok { printed := printed, db := dbSent.1, sent := dbSent.2 }

/-- `Logger.forceUpload` (`src/core/logger.ts`) on an initialized logger:
delegates to `UploadManager.forceUpload` with the manager's captured uploader
and batch size.  Note that `this.config.uploadLogs` is consulted nowhere on
this path. -/
def forceUpload (cfg : LoggerConfig) (net : List LogEntry → Bool) (fuel : Nat)
    (db : List LogEntry) : Option (List LogEntry × List (List LogEntry)) :=
  UploadManager.forceUpload cfg.serverUrl net cfg.batchSize fuel db

/-- The object wiring of a `Logger` instance that `updateConfig` manipulates
(`src/core/logger.ts`): the current config, the `serverUrl` captured by
`this.uploader` (a `LogUploader` is entirely determined by the URL it was
constructed with), and the `serverUrl` of the `LogUploader` instance that
`this.uploadManager` holds (captured when the `UploadManager` was
constructed). -/
structure Wiring where
  config : LoggerConfig
  loggerUploaderUrl : String
  managerUploaderUrl : String
deriving DecidableEq, Repr

/-- The `Logger` constructor (`src/core/logger.ts`): builds a `LogUploader`
from the merged config's `serverUrl` and hands that same instance to the new
`UploadManager`. -/
def construct (cfg : LoggerConfig) : Wiring :=
  { config := cfg, loggerUploaderUrl := cfg.serverUrl
    managerUploaderUrl := cfg.serverUrl }

/-- `Logger.updateConfig` (`src/core/logger.ts`): merge the new settings; if
`serverUrl` changed, replace `this.uploader` with a fresh `LogUploader`; if
the strategy or batch size changed, destroy and recreate `this.uploadManager`
around the current `this.uploader`.  Nothing else touches the
`UploadManager`'s captured uploader. -/
def updateConfig (st : Wiring) (newConfig : ConfigUpdate) : Wiring :=
  let oldConfig := st.config
  let cfg := spreadConfig oldConfig newConfig
  let uploaderUrl :=
    if oldConfig.serverUrl = cfg.serverUrl then st.loggerUploaderUrl
    else cfg.serverUrl
  let managerUrl :=
    if oldConfig.uploadStrategy = cfg.uploadStrategy
        ∧ oldConfig.batchSize = cfg.batchSize then
      st.managerUploaderUrl
    else uploaderUrl
  { config := cfg, loggerUploaderUrl := uploaderUrl
    managerUploaderUrl := managerUrl }

/-- The sweep the coordinator performs on the next idle fire or forced call:
it goes through the `UploadManager`'s captured uploader, so the endpoint used
is `st.managerUploaderUrl`. -/
def nextSweep (st : Wiring) (net : List LogEntry → Bool) (fuel : Nat)
    (db : List LogEntry) : Option (List LogEntry × List (List LogEntry)) :=
  UploadManager.uploadPendingLogs st.managerUploaderUrl net st.config.batchSize
    fuel db

end Logger

namespace IdleDetector

/-- The mutable state of an `IdleDetector` (`src/utils/idle.ts`) in a
non-browser environment (`typeof window === 'undefined'`: no activity
listeners exist).  `timerArmed` records whether a `setTimeout` is pending,
`hasCallback` whether `onIdle` registered a callback, and `fires` counts the
callback invocations so far. -/
structure State where
  isIdle : Bool
  timerArmed : Bool
  hasCallback : Bool
  fires : Nat
deriving DecidableEq, Repr

/-- The `IdleDetector` constructor in a non-browser environment: no activity
listeners are installed and `startIdleTimer` arms the one-shot timeout. -/
def constructNonBrowser : State :=
  { isIdle := false, timerArmed := true, hasCallback := false, fires := 0 }

/-- `IdleDetector.onIdle`: registers the callback (single slot). -/
def onIdle (s : State) : State :=
  { s with hasCallback := true }

/-- One quiet period elapsing in a non-browser environment.  If a timeout is
pending it fires exactly once (a `setTimeout` is one-shot, and the handler in
`resetTimer` does not re-arm it): the handler sets `isIdle` and invokes the
registered callback when `isIdle` was not already set.  With no pending
timeout nothing happens — in a non-browser environment no activity event ever
calls `resetTimer` again. -/
def timerElapsed (s : State) : State :=
  if s.timerArmed then
    if s.isIdle then { s with timerArmed := false }
    else
      let fires' := s.fires + (if s.hasCallback then 1 else 0)
      { s with timerArmed := false, isIdle := true, fires := fires' }
  else s

/-- `n` consecutive quiet periods elapsing. -/
def elapsePeriods (s : State) : Nat → State
  | 0 => s
  | n + 1 => elapsePeriods (timerElapsed s) n

end IdleDetector

namespace GuardMachine

/-- One upload trigger, as a task of the single-threaded cooperative
scheduler.  Both upload attempts in `src/uploader/uploadManager.ts`
(`uploadImmediately` and `uploadPendingLogs`) have the shape

  `if (this.isUploading) return` / `this.isUploading = true` — synchronous,
  with no `await` between the check and the assignment — then a body made of
  some number of suspension points (`await` on store reads, sink calls, store
  updates), then `finally { this.isUploading = false }`.

`notStarted k` is a trigger (immediate arrival, idle fire, or forced call)
that has not yet reached the guard and whose body, if entered, performs `k`
suspensions; `active k` is an attempt past the guard with `k` suspensions
left before its `finally` clause; `dropped` is a trigger that observed the
guard set and returned without uploading; `finished` is a completed
attempt. -/
inductive TaskState
  | notStarted (steps : Nat)
  | active (steps : Nat)
  | dropped
  | finished
deriving DecidableEq, Repr

/-- The scheduler state: the `isUploading` flag shared by both upload paths
and the tasks spawned so far. -/
structure MState where
  isUploading : Bool
  tasks : List TaskState
deriving DecidableEq, Repr

/-- Scheduler actions: `arrive k` spawns a new trigger whose body would
perform `k` suspensions; `run n` resumes task `n` up to its next suspension
point (or to completion); `raise n` is an exception thrown in the body of
attempt `n`, which skips the rest of the body and lands in the `finally`
clause. -/
inductive MAct
  | arrive (steps : Nat)
  | run (n : Nat)
  | raise (n : Nat)
deriving DecidableEq, Repr

/-- A task is an attempt currently holding the guard. -/
def TaskState.isActive : TaskState → Bool
  | .active _ => true
  | _ => false

/-- One scheduler step; `none` when the action does not apply.  Resuming a
`notStarted` task executes the guard check and, when the guard is clear, the
assignment `isUploading = true` atomically — the code has no suspension
between them.  Resuming `active 0` executes the `finally` clause, which
clears the flag unconditionally. -/
def machineStep (s : MState) (a : MAct) : Option MState :=
  match a with
  | .arrive k => some { s with tasks := s.tasks ++ [.notStarted k] }
  | .run n =>
    match s.tasks[n]? with
    | some (.notStarted k) =>
      if s.isUploading then some { s with tasks := s.tasks.set n .dropped }
      else some { isUploading := true, tasks := s.tasks.set n (.active k) }
    | some (.active (k + 1)) => some { s with tasks := s.tasks.set n (.active k) }
    | some (.active 0) =>
      some { isUploading := false, tasks := s.tasks.set n .finished }
    | _ => none
  | .raise n =>
    match s.tasks[n]? with
    | some (.active (_ + 1)) => some { s with tasks := s.tasks.set n (.active 0) }
    | _ => none

/-- Number of attempts simultaneously holding the guard. -/
def activeCount (s : MState) : Nat :=
  s.tasks.countP (fun t => t.isActive)

/-- The scheduler's initial state: guard clear, no tasks yet. -/
def initState : MState :=
  { isUploading := false, tasks := [] }

/-- States reachable from `initState` by any interleaving of arrivals, task
resumptions and in-body exceptions. -/
inductive Reaches : MState → Prop
  | refl : Reaches initState
  | tail {s s' : MState} (a : MAct) : Reaches s → machineStep s a = some s' → Reaches s'

/-- Resume task `n` repeatedly, `m` times. -/
def runSteps (n : Nat) : Nat → MState → Option MState
  | 0, s => some s
  | m + 1, s =>
    match machineStep s (.run n) with
    | some s' => runSteps n m s'
    | none => none

end GuardMachine

/-! ## Helper lemmas about the store operations -/

theorem markAsUploaded_nil (db : List LogEntry) :
    IndexedDBStorage.markAsUploaded [] db = db := by
  unfold IndexedDBStorage.markAsUploaded
  simp

theorem markAsUploaded_append (a b : List String) (db : List LogEntry) :
    IndexedDBStorage.markAsUploaded (a ++ b) db
      = IndexedDBStorage.markAsUploaded b (IndexedDBStorage.markAsUploaded a db) := by
  unfold IndexedDBStorage.markAsUploaded
  rw [List.map_map]
  refine List.map_congr_left (fun log _ => ?_)
  by_cases ha : log.id ∈ a
  · by_cases hb : log.id ∈ b <;>
      simp [Function.comp, ha, hb, List.mem_append]
  · by_cases hb : log.id ∈ b <;>
      simp [Function.comp, ha, hb, List.mem_append]

/-! ## C7 — idempotence of `markAsUploaded` -/

/-- C7: `markAsUploaded` is idempotent: marking the same ids twice equals
marking them once; ids matching no record leave the store unchanged (a
missing id is a no-op, not an error); ids all of whose records are already
uploaded leave the store unchanged; and the update decomposes per id — marking
`ids ++ ids2` equals marking `ids` and then `ids2`, so each id's update is
independent. -/
theorem markAsUploaded_idempotent (ids : List String) (db : List LogEntry) :
    IndexedDBStorage.markAsUploaded ids (IndexedDBStorage.markAsUploaded ids db)
        = IndexedDBStorage.markAsUploaded ids db
    ∧ (∀ missing : List String, (∀ r ∈ db, ∀ i ∈ missing, r.id ≠ i) →
        IndexedDBStorage.markAsUploaded missing db = db)
    ∧ ((∀ r ∈ db, r.id ∈ ids → r.uploaded = true) →
        IndexedDBStorage.markAsUploaded ids db = db)
    ∧ (∀ ids2 : List String,
        IndexedDBStorage.markAsUploaded (ids ++ ids2) db
          = IndexedDBStorage.markAsUploaded ids2 (IndexedDBStorage.markAsUploaded ids db)) := by
  refine ⟨?_, ?_, ?_, fun ids2 => markAsUploaded_append ids ids2 db⟩
  · unfold IndexedDBStorage.markAsUploaded
    rw [List.map_map]
    refine List.map_congr_left (fun log _ => ?_)
    by_cases h : log.id ∈ ids <;> simp [Function.comp, h]
  · intro missing hmiss
    unfold IndexedDBStorage.markAsUploaded
    have : ∀ log ∈ db,
        (if log.id ∈ missing then { log with uploaded := true } else log) = log := by
      intro log hlog
      have : log.id ∉ missing := fun hin => hmiss log hlog log.id hin rfl
      simp [this]
    simpa using List.map_congr_left this
  · intro hup
    unfold IndexedDBStorage.markAsUploaded
    have : ∀ log ∈ db,
        (if log.id ∈ ids then { log with uploaded := true } else log) = log := by
      intro log hlog
      by_cases h : log.id ∈ ids
      · have := hup log hlog h
        simp [h, ← this]
      · simp [h]
    simpa using List.map_congr_left this

/-- Witness for C7 at a concrete store: marking `["a"]` twice equals marking
it once, a missing id is a no-op, and re-marking an already-uploaded id is a
no-op. -/
theorem markAsUploaded_idempotent_witness :
    (IndexedDBStorage.markAsUploaded ["a"]
        (IndexedDBStorage.markAsUploaded ["a"]
          [{ id := "a", level := .info, title := "t", data := [],
             timestamp := 5, uploaded := false }])
      = IndexedDBStorage.markAsUploaded ["a"]
          [{ id := "a", level := .info, title := "t", data := [],
             timestamp := 5, uploaded := false }])
    ∧ (IndexedDBStorage.markAsUploaded ["zz"]
        [{ id := "a", level := .info, title := "t", data := [],
           timestamp := 5, uploaded := false }]
      = [{ id := "a", level := .info, title := "t", data := [],
           timestamp := 5, uploaded := false }])
    ∧ (IndexedDBStorage.markAsUploaded ["b"]
        [{ id := "b", level := .warn, title := "u", data := [],
           timestamp := 6, uploaded := true }]
      = [{ id := "b", level := .warn, title := "u", data := [],
           timestamp := 6, uploaded := true }]) := by
  refine ⟨(markAsUploaded_idempotent ["a"] _).1, ?_, ?_⟩
  · exact (markAsUploaded_idempotent ["a"] _).2.1 ["zz"] (by decide)
  · exact (markAsUploaded_idempotent ["b"] _).2.2.1 (by decide)

/-! ## C6 — expiry sweep cutoff -/

/-- Counterexample to C6 as stated: a record whose `timestamp` equals the
cutoff `now - retentionDays * 86400000` exactly — i.e. a record "with
timestamp at the cutoff", which the claim says survives — is deleted by the
expiry sweep, because `IDBKeyRange.upperBound` is an inclusive bound. -/
theorem cleanup_deletes_record_at_cutoff :
    (172800000 : Int) - 1 * (24 * 60 * 60 * 1000) = (86400000 : Int)
    ∧ IndexedDBStorage.cleanupExpiredLogs 1 172800000
        [{ id := "x", level := .info, title := "t", data := [],
           timestamp := 86400000, uploaded := false }] = [] := by
  constructor
  · decide
  · decide

/-- C6 amended: the expiry sweep deletes exactly the records with timestamp
less than **or equal to** the cutoff `now - retentionDays` in milliseconds,
uploaded or not: a record survives (is a member of the store afterwards) iff
it was in the store and its timestamp is strictly greater than the cutoff. -/
theorem cleanupExpiredLogs_mem_iff (expirationDays now : Int)
    (db : List LogEntry) (r : LogEntry) :
    r ∈ IndexedDBStorage.cleanupExpiredLogs expirationDays now db
      ↔ r ∈ db ∧ now - expirationDays * 86400000 < r.timestamp := by
  unfold IndexedDBStorage.cleanupExpiredLogs
  rw [List.mem_filter]
  constructor
  · rintro ⟨hmem, hts⟩
    refine ⟨hmem, ?_⟩
    have := of_decide_eq_true hts
    linarith
  · rintro ⟨hmem, hts⟩
    refine ⟨hmem, decide_eq_true ?_⟩
    linarith

/-! ## C8 — idle signal in a non-browser environment -/

theorem elapsePeriods_fixed (m : Nat) :
    IdleDetector.elapsePeriods
        { isIdle := true, timerArmed := false, hasCallback := true, fires := 1 } m
      = { isIdle := true, timerArmed := false, hasCallback := true, fires := 1 } := by
  induction m with
  | zero => rfl
  | succ k ih =>
    simpa [IdleDetector.elapsePeriods, IdleDetector.timerElapsed] using ih

/-- Counterexample to C8 as stated: in a non-browser environment the claim
says the callback fires again after every period, so after two quiet periods
it would have fired twice; in the code the `setTimeout` handler never re-arms
the timer (only an activity event would, and there are none), so after two
periods the callback has fired exactly once, not twice. -/
theorem idle_nonbrowser_two_periods_one_fire :
    (IdleDetector.elapsePeriods
        (IdleDetector.onIdle IdleDetector.constructNonBrowser) 2).fires = 1
    ∧ (IdleDetector.elapsePeriods
        (IdleDetector.onIdle IdleDetector.constructNonBrowser) 2).fires ≠ 2 := by
  constructor
  · decide
  · decide

/-- C8 amended: in an environment with no observable activity signal the idle
signal is one-shot, not recurring: the registered callback fires exactly once
when the first quiet period elapses, the timeout is never re-armed, and the
detector stays in the idle state, so no further period produces a callback
invocation (until teardown). -/
theorem idle_nonbrowser_single_fire (n : Nat) (h : 1 ≤ n) :
    IdleDetector.elapsePeriods
        (IdleDetector.onIdle IdleDetector.constructNonBrowser) n
      = { isIdle := true, timerArmed := false, hasCallback := true, fires := 1 } := by
  obtain ⟨m, rfl⟩ := Nat.exists_eq_add_of_le h
  have h1 : IdleDetector.timerElapsed
      (IdleDetector.onIdle IdleDetector.constructNonBrowser)
      = { isIdle := true, timerArmed := false, hasCallback := true, fires := 1 } := by
    decide
  calc IdleDetector.elapsePeriods
        (IdleDetector.onIdle IdleDetector.constructNonBrowser) (1 + m)
      = IdleDetector.elapsePeriods
          (IdleDetector.timerElapsed
            (IdleDetector.onIdle IdleDetector.constructNonBrowser)) m := by
        rw [Nat.add_comm]
        rfl
    _ = { isIdle := true, timerArmed := false, hasCallback := true, fires := 1 } := by
        rw [h1]; exact elapsePeriods_fixed m

/-- Witness for C8's amended theorem at `n = 3`. -/
theorem idle_nonbrowser_single_fire_witness :
    (1 ≤ 3)
    ∧ IdleDetector.elapsePeriods
        (IdleDetector.onIdle IdleDetector.constructNonBrowser) 3
      = { isIdle := true, timerArmed := false, hasCallback := true, fires := 1 } :=
  ⟨by decide, idle_nonbrowser_single_fire 3 (by decide)⟩

/-! ## C3 — reconfiguring only the endpoint -/

/-- C3 evaluated on the code: constructing a logger with endpoint
`https://a.example` and then calling `updateConfig` with only a new
`serverUrl = https://b.example` (strategy and batch size unchanged) replaces
`this.uploader`, but the `UploadManager` — which performs every send — still
holds the `LogUploader` captured at its construction, pointing at
`https://a.example`.  The next sink send performed by the coordinator
therefore uses the old endpoint, not the new one as the claim states. -/
theorem updateConfig_serverUrl_only_keeps_old_sink :
    (Logger.updateConfig
        (Logger.construct { DEFAULT_CONFIG with serverUrl := "https://a.example" })
        { serverUrl := some "https://b.example" }).config.serverUrl
      = "https://b.example"
    ∧ (Logger.updateConfig
        (Logger.construct { DEFAULT_CONFIG with serverUrl := "https://a.example" })
        { serverUrl := some "https://b.example" }).loggerUploaderUrl
      = "https://b.example"
    ∧ (Logger.updateConfig
        (Logger.construct { DEFAULT_CONFIG with serverUrl := "https://a.example" })
        { serverUrl := some "https://b.example" }).managerUploaderUrl
      = "https://a.example" := by
  refine ⟨?_, ?_, ?_⟩ <;> decide

/-! ## C2 — error propagation out of the logging calls -/

/-- Counterexample to C2 as stated: when store initialization fails
(`initOk = false`) on a not-yet-initialized logger, a public logging call
does **not** resolve normally and does not fall back to an unpersisted mode —
the `await this.init()` at the top of `Logger.log` sits outside the
try/catch, and `init` rethrows the store-open error, so the call rejects with
it.  Evaluated here on `info` with default configuration, a healthy store
write path and a healthy sink. -/
theorem log_rejects_when_init_fails :
    Logger.logRun DEFAULT_CONFIG false false true (fun _ => true) []
        "id1" 1000 .info "hello" []
      = .error .storageInit := by
  rfl

/-- C2 amended: once store initialization has succeeded (the logger is
initialized, or this call's lazy `init` succeeds), no error from the upload or
storage path propagates to the caller of a public logging method: the call
resolves normally for every combination of store-write failure, sink failure,
configuration, and store contents.  When store initialization fails, however,
the logging call rejects with that initialization error instead of continuing
in an unpersisted mode. -/
theorem log_resolves_after_init (cfg : LoggerConfig)
    (initialized initOk saveOk : Bool) (net : List LogEntry → Bool)
    (db : List LogEntry) (newId : String) (now : Int) (level : LogLevel)
    (title : String) (data : List (String × String))
    (h : initialized = true ∨ initOk = true) :
    ∃ res, Logger.logRun cfg initialized initOk saveOk net db
        newId now level title data = .ok res := by
  unfold Logger.logRun
  have hinit : (!initialized && !initOk) = false := by
    rcases h with h | h <;> simp [h]
  rw [hinit]
  simp only [Bool.false_eq_true, if_false]
  by_cases hskip : (!cfg.debugMode && (level == .debug || level == .trace)) = true
  · rw [if_pos hskip]
    exact ⟨_, rfl⟩
  · rw [if_neg hskip]
    exact ⟨_, rfl⟩

/-- Witness for C2's amended theorem: an initialized logger with a failing
store write and a failing sink still resolves the `warn` call normally. -/
theorem log_resolves_after_init_witness :
    ((true : Bool) = true ∨ (false : Bool) = true)
    ∧ ∃ res, Logger.logRun DEFAULT_CONFIG true false false (fun _ => false)
        [] "id2" 2000 .warn "w" [] = .ok res :=
  ⟨Or.inl rfl,
    log_resolves_after_init DEFAULT_CONFIG true false false (fun _ => false)
      [] "id2" 2000 .warn "w" [] (Or.inl rfl)⟩

/-! ## C10 — `debugMode = false` drops `debug`/`trace` entirely -/

theorem markAsUploaded_preserves_fields (ids : List String) (db : List LogEntry)
    (r : LogEntry) (hr : r ∈ db) :
    ∃ r2 ∈ IndexedDBStorage.markAsUploaded ids db,
      r2.id = r.id ∧ r2.level = r.level ∧ r2.title = r.title
        ∧ r2.data = r.data ∧ r2.timestamp = r.timestamp := by
  unfold IndexedDBStorage.markAsUploaded
  refine ⟨_, List.mem_map_of_mem _ hr, ?_⟩
  by_cases h : r.id ∈ ids <;> simp [h]

theorem any_id_eq_false (db : List LogEntry) (newId : String)
    (hfresh : ∀ r ∈ db, r.id ≠ newId) :
    db.any (fun r => r.id == newId) = false := by
  rw [List.any_eq_false]
  intro r hr
  simp [hfresh r hr]

/-- C10: on an initialized logger with `debugMode = false`, a `debug` or
`trace` call returns before any record is created — nothing is printed, the
store is unchanged, and nothing is handed to the uploader — while an `info`,
`warn` or `error` call still prints its entry and persists a record with the
given id, level, title, data and timestamp (for any upload configuration,
strategy and sink outcome). -/
theorem debugMode_off_filters_debug_trace (cfg : LoggerConfig)
    (initOk saveOk : Bool) (net : List LogEntry → Bool) (db : List LogEntry)
    (newId : String) (now : Int) (title : String) (data : List (String × String))
    (hdm : cfg.debugMode = false) (hsave : saveOk = true)
    (hfresh : ∀ r ∈ db, r.id ≠ newId) :
    Logger.logRun cfg true initOk saveOk net db newId now .debug title data
        = .ok { printed := none, db := db, sent := [] }
    ∧ Logger.logRun cfg true initOk saveOk net db newId now .trace title data
        = .ok { printed := none, db := db, sent := [] }
    ∧ ∀ level : LogLevel, (level = .info ∨ level = .warn ∨ level = .error) →
        ∃ res, Logger.logRun cfg true initOk saveOk net db newId now level title data
            = .ok res
          ∧ res.printed = some (LogEntry.mk newId level title data now false)
          ∧ ∃ e ∈ res.db, e.id = newId ∧ e.level = level ∧ e.title = title
              ∧ e.data = data ∧ e.timestamp = now := by
  refine ⟨?_, ?_, ?_⟩
  · simp [Logger.logRun, hdm]
  · simp [Logger.logRun, hdm]
  · intro level hl
    have hd : level ≠ LogLevel.debug := by rcases hl with rfl | rfl | rfl <;> decide
    have ht : level ≠ LogLevel.trace := by rcases hl with rfl | rfl | rfl <;> decide
    have hsaved : IndexedDBStorage.saveLog saveOk
        (LogEntry.mk newId level title data now false) db
        = .ok (db ++ [LogEntry.mk newId level title data now false]) := by
      unfold IndexedDBStorage.saveLog
      rw [hsave]
      simp [any_id_eq_false db newId hfresh]
    have hmem : LogEntry.mk newId level title data now false
        ∈ db ++ [LogEntry.mk newId level title data now false] := by
      simp
    by_cases hul : cfg.uploadLogs
    · cases hst : cfg.uploadStrategy with
      | idle =>
        refine ⟨Logger.LogResult.mk
            (some (LogEntry.mk newId level title data now false))
            (db ++ [LogEntry.mk newId level title data now false]) [], ?_, rfl, ?_⟩
        · simp [Logger.logRun, UploadManager.handleNewLog, hdm, hd, ht, hul,
            hst, hsaved]
        · exact ⟨_, hmem, rfl, rfl, rfl, rfl, rfl⟩
      | immediate =>
        by_cases hup : LogUploader.uploadLogs cfg.serverUrl net
            [LogEntry.mk newId level title data now false] = true
        · refine ⟨Logger.LogResult.mk
              (some (LogEntry.mk newId level title data now false))
              (IndexedDBStorage.markAsUploaded [newId]
                (db ++ [LogEntry.mk newId level title data now false]))
              [[LogEntry.mk newId level title data now false]], ?_, rfl, ?_⟩
          · simp [Logger.logRun, UploadManager.handleNewLog,
              UploadManager.uploadImmediately, hdm, hd, ht, hul, hst, hsaved, hup]
          · simpa using markAsUploaded_preserves_fields [newId] _ _ hmem
        · refine ⟨Logger.LogResult.mk
              (some (LogEntry.mk newId level title data now false))
              (db ++ [LogEntry.mk newId level title data now false])
              [[LogEntry.mk newId level title data now false]], ?_, rfl, ?_⟩
          · simp [Logger.logRun, UploadManager.handleNewLog,
              UploadManager.uploadImmediately, hdm, hd, ht, hul, hst, hsaved, hup]
          · exact ⟨_, hmem, rfl, rfl, rfl, rfl, rfl⟩
    · refine ⟨Logger.LogResult.mk
          (some (LogEntry.mk newId level title data now false))
          (db ++ [LogEntry.mk newId level title data now false]) [], ?_, rfl, ?_⟩
      · simp [Logger.logRun, hdm, hd, ht, hul, hsaved]
      · exact ⟨_, hmem, rfl, rfl, rfl, rfl, rfl⟩

/-- Witness for C10 on a concrete logger with `debugMode = false`: a `debug`
call leaves everything untouched, and so does a `trace` call. -/
theorem debugMode_off_filters_debug_trace_witness :
    ({ DEFAULT_CONFIG with debugMode := false } : LoggerConfig).debugMode = false
    ∧ Logger.logRun { DEFAULT_CONFIG with debugMode := false } true true true
        (fun _ => true) [] "n1" 7 .debug "t" []
      = .ok { printed := none, db := [], sent := [] }
    ∧ Logger.logRun { DEFAULT_CONFIG with debugMode := false } true true true
        (fun _ => true) [] "n1" 7 .trace "t" []
      = .ok { printed := none, db := [], sent := [] } :=
  ⟨rfl,
    (debugMode_off_filters_debug_trace { DEFAULT_CONFIG with debugMode := false }
      true true (fun _ => true) [] "n1" 7 "t" [] rfl rfl (by simp)).1,
    (debugMode_off_filters_debug_trace { DEFAULT_CONFIG with debugMode := false }
      true true (fun _ => true) [] "n1" 7 "t" [] rfl rfl (by simp)).2.1⟩

/-! ## Helper lemmas about `jsSlice` and the sweep loop -/

theorem jsSlice_append_drop (xs : List α) (i bs : Int)
    (hi : 0 ≤ i) (hbs : 1 ≤ bs) (hlt : i < (xs.length : Int)) :
    jsSlice xs i (i + bs) ++ xs.drop (i + bs).toNat = xs.drop i.toNat := by
  unfold jsSlice
  have hs : ¬ i < 0 := by omega
  have hstop : ¬ i + bs < 0 := by omega
  simp only [hs, hstop, if_false]
  have hmin_i : min i (xs.length : Int) = i := min_eq_left (le_of_lt hlt)
  rw [hmin_i]
  rcases le_or_lt (i + bs) (xs.length : Int) with hle | hgt
  · rw [min_eq_left hle]
    have h1 : (i + bs - i).toNat = bs.toNat := by omega
    have h2 : (i + bs).toNat = i.toNat + bs.toNat := by omega
    rw [h1, h2, ← List.drop_drop bs.toNat i.toNat xs]
    exact List.take_append_drop _ _
  · rw [min_eq_right (le_of_lt hgt)]
    have h1 : xs.length ≤ (i + bs).toNat := by omega
    rw [List.drop_eq_nil_of_le h1, List.append_nil]
    apply List.take_of_length_le
    rw [List.length_drop]
    omega

theorem jsSlice_zero_ne_nil (xs : List α) (bs : Int) (hbs : 1 ≤ bs)
    (hxs : xs ≠ []) : jsSlice xs 0 bs ≠ [] := by
  have hlen : 0 < xs.length := List.length_pos.mpr hxs
  unfold jsSlice
  have h0 : ¬ (0 : Int) < 0 := by omega
  have hb : ¬ bs < 0 := by omega
  simp only [h0, hb, if_false]
  intro h
  have hcl := congrArg List.length h
  rw [List.length_take, List.length_drop] at hcl
  simp only [List.length_nil] at hcl
  omega

theorem jsSlice_zero_zero (xs : List α) : jsSlice xs 0 0 = [] := by
  simp [jsSlice]

theorem sweepLoop_stop (url : String) (net : List LogEntry → Bool) (bs : Int)
    (pending : List LogEntry) (fuel : Nat) (i : Int) (db : List LogEntry)
    (sent : List (List LogEntry)) (h : ¬ i < (pending.length : Int)) :
    UploadManager.sweepLoop url net bs pending fuel i db sent = some (db, sent) := by
  unfold UploadManager.sweepLoop
  rw [if_neg h]

theorem sweepLoop_step (url : String) (net : List LogEntry → Bool) (bs : Int)
    (pending : List LogEntry) (f : Nat) (i : Int) (db : List LogEntry)
    (sent : List (List LogEntry)) (h : i < (pending.length : Int)) :
    UploadManager.sweepLoop url net bs pending (f + 1) i db sent
      = (if LogUploader.uploadLogs url net (jsSlice pending i (i + bs)) then
          UploadManager.sweepLoop url net bs pending f (i + bs)
            (IndexedDBStorage.markAsUploaded
              ((jsSlice pending i (i + bs)).map (fun log => log.id)) db)
            (sent ++ [jsSlice pending i (i + bs)])
        else some (db, sent ++ [jsSlice pending i (i + bs)])) := by
  conv_lhs => rw [UploadManager.sweepLoop]
  rw [if_pos h]

theorem uploadLogs_true_of_ne (url : String) (net : List LogEntry → Bool)
    (batch : List LogEntry) (hurl : url ≠ "") (hnet : ∀ b, net b = true) :
    LogUploader.uploadLogs url net batch = true := by
  unfold LogUploader.uploadLogs
  have h1 : (url == "") = false := by simpa using hurl
  rw [h1]
  by_cases h2 : (batch.length == 0) = true <;> simp [h2, hnet]

theorem sweepLoop_all_success (url : String) (net : List LogEntry → Bool)
    (bs : Int) (pending : List LogEntry) (hurl : url ≠ "")
    (hnet : ∀ b, net b = true) (hbs : 1 ≤ bs) :
    ∀ (fuel : Nat) (i : Int) (db : List LogEntry) (sent : List (List LogEntry)),
      0 ≤ i → (pending.length : Int) - i ≤ (fuel : Int) →
      ∃ s2, UploadManager.sweepLoop url net bs pending fuel i db sent
          = some (IndexedDBStorage.markAsUploaded
              ((pending.drop i.toNat).map (fun log => log.id)) db, sent ++ s2)
        ∧ (i < (pending.length : Int) →
            s2.head? = some (jsSlice pending i (i + bs))) := by
  intro fuel
  induction fuel with
  | zero =>
    intro i db sent hi hfuel
    have hstop : ¬ i < (pending.length : Int) := by
      simp only [Nat.cast_zero] at hfuel
      omega
    have hdrop : pending.drop i.toNat = [] := by
      apply List.drop_eq_nil_of_le
      omega
    refine ⟨[], ?_, fun h => absurd h hstop⟩
    rw [sweepLoop_stop url net bs pending 0 i db sent hstop, hdrop]
    simp [markAsUploaded_nil]
  | succ f ih =>
    intro i db sent hi hfuel
    by_cases hlt : i < (pending.length : Int)
    · rw [sweepLoop_step url net bs pending f i db sent hlt,
        if_pos (uploadLogs_true_of_ne url net _ hurl hnet)]
      obtain ⟨s2', heq, _⟩ := ih (i + bs)
        (IndexedDBStorage.markAsUploaded
          ((jsSlice pending i (i + bs)).map (fun log => log.id)) db)
        (sent ++ [jsSlice pending i (i + bs)]) (by omega)
        (by push_cast at hfuel ⊢; omega)
      refine ⟨jsSlice pending i (i + bs) :: s2', ?_, fun _ => rfl⟩
      rw [heq, ← markAsUploaded_append, ← List.map_append,
        jsSlice_append_drop pending i bs hi hbs hlt]
      simp
    · have hdrop : pending.drop i.toNat = [] := by
        apply List.drop_eq_nil_of_le
        omega
      refine ⟨[], ?_, fun h => absurd h hlt⟩
      rw [sweepLoop_stop url net bs pending (f + 1) i db sent hlt, hdrop]
      simp [markAsUploaded_nil]

theorem getUnuploadedLogs_mark_all (db : List LogEntry) :
    IndexedDBStorage.getUnuploadedLogs
      (IndexedDBStorage.markAsUploaded
        ((IndexedDBStorage.getUnuploadedLogs db).map (fun log => log.id)) db)
      = [] := by
  unfold IndexedDBStorage.getUnuploadedLogs IndexedDBStorage.markAsUploaded
  rw [List.filter_eq_nil_iff]
  intro x hx
  obtain ⟨r, hr, rfl⟩ := List.mem_map.mp hx
  by_cases hup : r.uploaded
  · by_cases hin : r.id ∈ (List.filter (fun log => !log.uploaded) db).map
        (fun log => log.id) <;> simp [hin, hup]
  · have hrf : r ∈ List.filter (fun log => !log.uploaded) db :=
      List.mem_filter.mpr ⟨hr, by simp [hup]⟩
    have hin : r.id ∈ (List.filter (fun log => !log.uploaded) db).map
        (fun log => log.id) := List.mem_map_of_mem _ hrf
    simp [hin]

/-! ## C9 — `forceUpload` ignores the `uploadLogs` flag -/

/-- C9: `Logger.forceUpload` never consults `config.uploadLogs`: with
`uploadLogs = false` but a non-empty `serverUrl`, a positive batch size, a
sink that reports success, pending un-uploaded records in the store and
enough fuel for the loop, the forced sweep still invokes the uploader (the
first batch handed to it is non-empty) and marks every pending record
uploaded, leaving no un-uploaded record behind. -/
theorem forceUpload_ignores_uploadLogs (cfg : LoggerConfig)
    (net : List LogEntry → Bool) (db : List LogEntry) (fuel : Nat)
    (_hflag : cfg.uploadLogs = false) (hurl : cfg.serverUrl ≠ "")
    (hbs : 1 ≤ cfg.batchSize) (hnet : ∀ b, net b = true)
    (hp : IndexedDBStorage.getUnuploadedLogs db ≠ [])
    (hfuel : (IndexedDBStorage.getUnuploadedLogs db).length ≤ fuel) :
    ∃ sent, Logger.forceUpload cfg net fuel db
        = some (IndexedDBStorage.markAsUploaded
            ((IndexedDBStorage.getUnuploadedLogs db).map (fun log => log.id))
            db, sent)
      ∧ sent.head? = some
          (jsSlice (IndexedDBStorage.getUnuploadedLogs db) 0 cfg.batchSize)
      ∧ jsSlice (IndexedDBStorage.getUnuploadedLogs db) 0 cfg.batchSize ≠ []
      ∧ IndexedDBStorage.getUnuploadedLogs
          (IndexedDBStorage.markAsUploaded
            ((IndexedDBStorage.getUnuploadedLogs db).map (fun log => log.id)) db)
          = [] := by
  have hlen : 0 < (IndexedDBStorage.getUnuploadedLogs db).length :=
    List.length_pos.mpr hp
  obtain ⟨s2, heq, hhead⟩ := sweepLoop_all_success cfg.serverUrl net cfg.batchSize
    (IndexedDBStorage.getUnuploadedLogs db) hurl hnet hbs fuel 0 db []
    (by omega) (by omega)
  refine ⟨s2, ?_, ?_, ?_, getUnuploadedLogs_mark_all db⟩
  · unfold Logger.forceUpload UploadManager.forceUpload
      UploadManager.uploadPendingLogs
    have hne : ((IndexedDBStorage.getUnuploadedLogs db).length == 0) = false := by
      simp only [beq_eq_false_iff_ne, ne_eq]
      omega
    simp only [Int.toNat_zero, List.drop_zero, List.nil_append] at heq
    simp only [hne, Bool.false_eq_true, if_false]
    exact heq
  · have := hhead (by omega)
    simpa using this
  · exact jsSlice_zero_ne_nil _ _ hbs hp

/-- Witness for C9: a logger configured with `uploadLogs = false`, endpoint
`http://x`, batch size 1, one pending record, an always-successful sink and
fuel 5 marks the record uploaded via the forced sweep. -/
theorem forceUpload_ignores_uploadLogs_witness :
    ∃ sent, Logger.forceUpload
        { serverUrl := "http://x", debugMode := true, uploadLogs := false,
          logExpiration := 3, uploadStrategy := .idle, batchSize := 1 }
        (fun _ => true) 5
        [LogEntry.mk "a" .info "t" [] 3 false]
        = some (IndexedDBStorage.markAsUploaded
            ((IndexedDBStorage.getUnuploadedLogs
              [LogEntry.mk "a" .info "t" [] 3 false]).map (fun log => log.id))
            [LogEntry.mk "a" .info "t" [] 3 false], sent)
      ∧ sent.head? = some (jsSlice
          (IndexedDBStorage.getUnuploadedLogs
            [LogEntry.mk "a" .info "t" [] 3 false]) 0 1)
      ∧ jsSlice (IndexedDBStorage.getUnuploadedLogs
          [LogEntry.mk "a" .info "t" [] 3 false]) 0 1 ≠ []
      ∧ IndexedDBStorage.getUnuploadedLogs
          (IndexedDBStorage.markAsUploaded
            ((IndexedDBStorage.getUnuploadedLogs
              [LogEntry.mk "a" .info "t" [] 3 false]).map (fun log => log.id))
            [LogEntry.mk "a" .info "t" [] 3 false])
          = [] :=
  forceUpload_ignores_uploadLogs
    { serverUrl := "http://x", debugMode := true, uploadLogs := false,
      logExpiration := 3, uploadStrategy := .idle, batchSize := 1 }
    (fun _ => true) [LogEntry.mk "a" .info "t" [] 3 false] 5
    rfl (by decide) (by decide) (fun _ => rfl) (by decide) (by decide)

/-! ## C5 — fail-fast batching within one sweep -/

/-- C5: with un-uploaded records `R1..R(2b)` and positive batch size `b`, if
the sink fails on the first batch, the sweep marks zero records uploaded (the
store is returned unchanged) and performs exactly one uploader call — the
second batch is never sent.  Marking happens only on a success response, and
the first failure stops the sweep immediately. -/
theorem sweep_failfast (url : String) (net : List LogEntry → Bool) (b : Int)
    (db : List LogEntry) (fuel : Nat) (hurl : url ≠ "") (hb : 1 ≤ b)
    (hlen : ((IndexedDBStorage.getUnuploadedLogs db).length : Int) = 2 * b)
    (hnet : net (jsSlice (IndexedDBStorage.getUnuploadedLogs db) 0 b) = false)
    (hfuel : 1 ≤ fuel) :
    UploadManager.uploadPendingLogs url net b fuel db
      = some (db, [jsSlice (IndexedDBStorage.getUnuploadedLogs db) 0 b]) := by
  obtain ⟨f, rfl⟩ := Nat.exists_eq_add_of_le hfuel
  unfold UploadManager.uploadPendingLogs
  have hne : ((IndexedDBStorage.getUnuploadedLogs db).length == 0) = false := by
    simp only [beq_eq_false_iff_ne, ne_eq]
    omega
  simp only [hne, Bool.false_eq_true, if_false]
  have hlt : (0 : Int) < ((IndexedDBStorage.getUnuploadedLogs db).length : Int) := by
    omega
  rw [Nat.add_comm 1 f, sweepLoop_step url net b _ f 0 db [] hlt]
  have hbatch : jsSlice (IndexedDBStorage.getUnuploadedLogs db) 0 (0 + b) ≠ [] := by
    rw [Int.zero_add]
    apply jsSlice_zero_ne_nil _ _ hb
    intro hnil
    rw [hnil] at hlen
    simp at hlen
    omega
  have hfail : LogUploader.uploadLogs url net
      (jsSlice (IndexedDBStorage.getUnuploadedLogs db) 0 (0 + b)) = false := by
    unfold LogUploader.uploadLogs
    have h1 : (url == "") = false := by simpa using hurl
    have h2 : ((jsSlice (IndexedDBStorage.getUnuploadedLogs db) 0 (0 + b)).length
        == 0) = false := by
      simp only [beq_eq_false_iff_ne, ne_eq]
      intro hz
      exact hbatch (List.eq_nil_of_length_eq_zero hz)
    rw [h1, h2]
    simp only [Bool.false_eq_true, if_false]
    rw [Int.zero_add]
    exact hnet
  rw [if_neg (by rw [hfail]; exact Bool.false_ne_true)]
  rw [Int.zero_add]
  rfl

/-- Witness for C5 with `b = 1` and two pending records: the sink fails, the
store comes back unchanged, and only the singleton first batch was sent. -/
theorem sweep_failfast_witness :
    UploadManager.uploadPendingLogs "http://x" (fun _ => false) 1 5
        [LogEntry.mk "a" .info "t" [] 1 false, LogEntry.mk "b" .info "u" [] 2 false]
      = some ([LogEntry.mk "a" .info "t" [] 1 false,
               LogEntry.mk "b" .info "u" [] 2 false],
          [jsSlice (IndexedDBStorage.getUnuploadedLogs
            [LogEntry.mk "a" .info "t" [] 1 false,
             LogEntry.mk "b" .info "u" [] 2 false]) 0 1]) :=
  sweep_failfast "http://x" (fun _ => false) 1
    [LogEntry.mk "a" .info "t" [] 1 false, LogEntry.mk "b" .info "u" [] 2 false]
    5 (by decide) (by decide) (by decide) rfl (by decide)

/-! ## C4 — batch size ≤ 0 -/

theorem sweepLoop_zero_bs_none (url : String) (net : List LogEntry → Bool)
    (pending : List LogEntry) (hurl : url ≠ "")
    (hlen : (0 : Int) < (pending.length : Int)) :
    ∀ (fuel : Nat) (db : List LogEntry) (sent : List (List LogEntry)),
      UploadManager.sweepLoop url net 0 pending fuel 0 db sent = none := by
  intro fuel
  induction fuel with
  | zero =>
    intro db sent
    unfold UploadManager.sweepLoop
    rw [if_pos hlen]
  | succ f ih =>
    intro db sent
    rw [sweepLoop_step url net 0 pending f 0 db sent hlen]
    have hempty : jsSlice pending 0 (0 + 0) = [] := by
      rw [Int.add_zero]
      exact jsSlice_zero_zero pending
    rw [hempty]
    have hok : LogUploader.uploadLogs url net [] = true := by
      unfold LogUploader.uploadLogs
      have h1 : (url == "") = false := by simpa using hurl
      rw [h1]
      simp
    rw [if_pos hok, Int.add_zero]
    exact ih _ _

/-- C4 evaluated on the code: with batch size `0` (the claim's "batch size
≤ 0 or missing" case), a configured endpoint and a non-empty pending set, the
sweep does **not** send all pending records as one unbounded batch and does
not terminate: `slice(i, i + 0)` is always empty, an empty batch trivially
"succeeds" without I/O, and `i += 0` never advances, so for every number of
allowed iterations the loop is still running — no upload ever happens and the
in-flight flag never clears. -/
theorem sweep_batchSize_zero_never_completes (url : String)
    (net : List LogEntry → Bool) (db : List LogEntry) (hurl : url ≠ "")
    (hp : IndexedDBStorage.getUnuploadedLogs db ≠ []) :
    ∀ fuel, UploadManager.uploadPendingLogs url net 0 fuel db = none := by
  intro fuel
  have hlen : 0 < (IndexedDBStorage.getUnuploadedLogs db).length :=
    List.length_pos.mpr hp
  unfold UploadManager.uploadPendingLogs
  have hne : ((IndexedDBStorage.getUnuploadedLogs db).length == 0) = false := by
    simp only [beq_eq_false_iff_ne, ne_eq]
    omega
  simp only [hne, Bool.false_eq_true, if_false]
  exact sweepLoop_zero_bs_none url net _ hurl (by omega) fuel db []

/-- Witness for C4's failing input: endpoint `http://x`, one pending record,
batch size `0`; even with fuel for five iterations the sweep has not
completed. -/
theorem sweep_batchSize_zero_never_completes_witness :
    ("http://x" : String) ≠ ""
    ∧ IndexedDBStorage.getUnuploadedLogs [LogEntry.mk "a" .info "t" [] 3 false] ≠ []
    ∧ UploadManager.uploadPendingLogs "http://x" (fun _ => true) 0 5
        [LogEntry.mk "a" .info "t" [] 3 false] = none :=
  ⟨by decide, by decide,
    sweep_batchSize_zero_never_completes "http://x" (fun _ => true)
      [LogEntry.mk "a" .info "t" [] 3 false] (by decide) (by decide) 5⟩

/-! ## C1 — the in-flight guard serializes upload attempts -/

namespace GuardMachine

theorem countP_set (p : TaskState → Bool) :
    ∀ (l : List TaskState) (n : Nat) (a b : TaskState), l[n]? = some a →
      (l.set n b).countP p + (if p a then 1 else 0)
        = l.countP p + (if p b then 1 else 0) := by
  intro l
  induction l with
  | nil =>
    intro n a b h
    simp at h
  | cons x xs ih =>
    intro n a b h
    cases n with
    | zero =>
      simp only [List.getElem?_cons_zero, Option.some.injEq] at h
      subst h
      simp only [List.set_cons_zero, List.countP_cons]
      omega
    | succ m =>
      simp only [List.getElem?_cons_succ] at h
      simp only [List.set_cons_succ, List.countP_cons]
      have := ih m a b h
      omega

/-- The machine invariant: the number of attempts holding the guard is `1`
exactly when `isUploading` is set, `0` otherwise. -/
def inv (s : MState) : Prop :=
  activeCount s = if s.isUploading then 1 else 0

theorem inv_init : inv initState := by
  unfold inv activeCount initState
  simp

theorem isActive_notStarted (k : Nat) :
    (TaskState.notStarted k).isActive = false := rfl

theorem isActive_active (k : Nat) : (TaskState.active k).isActive = true := rfl

theorem isActive_dropped : TaskState.dropped.isActive = false := rfl

theorem isActive_finished : TaskState.finished.isActive = false := rfl

theorem inv_step {s s' : MState} (a : MAct) (hinv : inv s)
    (hstep : machineStep s a = some s') : inv s' := by
  unfold inv activeCount at *
  cases a with
  | arrive k =>
    simp only [machineStep, Option.some.injEq] at hstep
    subst hstep
    simp only [List.countP_append, List.countP_cons, List.countP_nil,
      isActive_notStarted, Bool.false_eq_true, if_false]
    simpa using hinv
  | run n =>
    cases htask : s.tasks[n]? with
    | none =>
      simp [machineStep, htask] at hstep
    | some t =>
      cases t with
      | dropped => simp [machineStep, htask] at hstep
      | finished => simp [machineStep, htask] at hstep
      | notStarted k =>
        simp only [machineStep, htask] at hstep
        have hcount := fun b =>
          countP_set (fun t => t.isActive) s.tasks n (.notStarted k) b htask
        by_cases hflag : s.isUploading = true
        · rw [if_pos hflag] at hstep
          simp only [Option.some.injEq] at hstep
          subst hstep
          have hthis := hcount .dropped
          simp only [isActive_notStarted, isActive_dropped] at hthis
          simp at hthis
          rw [if_pos hflag] at hinv
          show List.countP (fun t => t.isActive) (s.tasks.set n TaskState.dropped)
              = if s.isUploading = true then 1 else 0
          rw [if_pos hflag]
          omega
        · rw [if_neg hflag] at hstep
          simp only [Option.some.injEq] at hstep
          subst hstep
          have hthis := hcount (.active k)
          simp only [isActive_notStarted, isActive_active] at hthis
          simp at hthis
          rw [if_neg hflag] at hinv
          show List.countP (fun t => t.isActive) (s.tasks.set n (TaskState.active k))
              = if (true : Bool) = true then 1 else 0
          rw [if_pos rfl]
          omega
      | active k =>
        have hmem : TaskState.active k ∈ s.tasks := by
          have h1 := htask
          rw [List.getElem?_eq_some] at h1
          obtain ⟨hlt, hEq⟩ := h1
          exact hEq ▸ List.getElem_mem hlt
        have hpos : 0 < s.tasks.countP (fun t => t.isActive) := by
          rw [List.countP_pos_iff]
          exact ⟨_, hmem, rfl⟩
        have hflag : s.isUploading = true := by
          by_contra hne
          rw [if_neg hne] at hinv
          omega
        cases k with
        | zero =>
          simp only [machineStep, htask, Option.some.injEq] at hstep
          subst hstep
          have hthis := countP_set (fun t => t.isActive) s.tasks n
            (.active 0) .finished htask
          simp only [isActive_active, isActive_finished] at hthis
          simp at hthis
          rw [if_pos hflag] at hinv
          show List.countP (fun t => t.isActive) (s.tasks.set n TaskState.finished)
              = if (false : Bool) = true then 1 else 0
          rw [if_neg (by simp)]
          omega
        | succ m =>
          simp only [machineStep, htask, Option.some.injEq] at hstep
          subst hstep
          have hthis := countP_set (fun t => t.isActive) s.tasks n
            (.active (m + 1)) (.active m) htask
          simp only [isActive_active] at hthis
          simp at hthis
          rw [if_pos hflag] at hinv
          show List.countP (fun t => t.isActive) (s.tasks.set n (TaskState.active m))
              = if s.isUploading = true then 1 else 0
          rw [if_pos hflag]
          omega
  | raise n =>
    cases htask : s.tasks[n]? with
    | none =>
      simp [machineStep, htask] at hstep
    | some t =>
      cases t with
      | notStarted k => simp [machineStep, htask] at hstep
      | dropped => simp [machineStep, htask] at hstep
      | finished => simp [machineStep, htask] at hstep
      | active k =>
        cases k with
        | zero => simp [machineStep, htask] at hstep
        | succ m =>
          simp only [machineStep, htask, Option.some.injEq] at hstep
          subst hstep
          have hthis := countP_set (fun t => t.isActive) s.tasks n
            (.active (m + 1)) (.active 0) htask
          simp only [isActive_active] at hthis
          simp at hthis
          show List.countP (fun t => t.isActive) (s.tasks.set n (TaskState.active 0))
              = if s.isUploading = true then 1 else 0
          rw [hthis]
          exact hinv

theorem inv_reaches {s : MState} (h : Reaches s) : inv s := by
  induction h with
  | refl => exact inv_init
  | tail a _ hstep ih => exact inv_step a ih hstep

theorem runSteps_clears (n : Nat) :
    ∀ (k : Nat) (s : MState), s.tasks[n]? = some (.active k) →
      ∃ s', runSteps n (k + 1) s = some s' ∧ s'.isUploading = false := by
  intro k
  induction k with
  | zero =>
    intro s h
    refine ⟨{ isUploading := false, tasks := s.tasks.set n .finished }, ?_, rfl⟩
    unfold runSteps
    simp only [machineStep, h]
    rfl
  | succ m ih =>
    intro s h
    have hlt : n < s.tasks.length := by
      by_contra hge
      rw [List.getElem?_eq_none (by omega)] at h
      exact absurd h (by simp)
    have hstep : machineStep s (.run n)
        = some { s with tasks := s.tasks.set n (.active m) } := by
      simp only [machineStep, h]
    have hnext : ({ s with tasks := s.tasks.set n (.active m) } : MState).tasks[n]?
        = some (.active m) := by
      simp only
      exact List.getElem?_set_eq_of_lt _ hlt
    obtain ⟨s', hrun, hflag⟩ := ih _ hnext
    refine ⟨s', ?_, hflag⟩
    unfold runSteps
    rw [hstep]
    exact hrun

end GuardMachine

/-- C1: for every interleaving of upload triggers reachable from the initial
state (immediate arrivals, idle fires, forced calls, suspensions resuming in
any order, exceptions in upload bodies), at most one upload attempt is active
at any time — in fact the number of active attempts is `1` exactly when the
`isUploading` flag is set; a trigger that reaches the guard while the flag is
set is dropped (it returns without uploading and changes nothing else); and
an active attempt with `k` suspensions left always clears the flag in its
final step — after its remaining `k + 1` resumptions the flag is `false`, on
success, failure, or exception (an exception only shortens the body, and the
clearing step still runs), so the flag is never left permanently set. -/
theorem upload_inflight_guard (s : GuardMachine.MState)
    (hreach : GuardMachine.Reaches s) :
    GuardMachine.activeCount s ≤ 1
    ∧ GuardMachine.activeCount s = (if s.isUploading = true then 1 else 0)
    ∧ (∀ n k, s.tasks[n]? = some (.notStarted k) → s.isUploading = true →
        GuardMachine.machineStep s (.run n)
          = some { s with tasks := s.tasks.set n .dropped })
    ∧ (∀ n k, s.tasks[n]? = some (.active k) →
        ∃ s', GuardMachine.runSteps n (k + 1) s = some s'
          ∧ s'.isUploading = false) := by
  have hinv := GuardMachine.inv_reaches hreach
  unfold GuardMachine.inv at hinv
  refine ⟨?_, hinv, ?_, ?_⟩
  · rw [hinv]
    split <;> omega
  · intro n k htask hflag
    simp only [GuardMachine.machineStep, htask, hflag, if_true]
  · intro n k htask
    exact GuardMachine.runSteps_clears n k s htask

/-- Witness for C1 at the concrete reachable state in which one trigger
arrived and passed the guard (flag set, one active attempt with one
suspension left): the active count is at most one, and resuming that attempt
twice clears the flag. -/
theorem upload_inflight_guard_witness :
    GuardMachine.activeCount
        { isUploading := true, tasks := [GuardMachine.TaskState.active 1] } ≤ 1
    ∧ ∃ s', GuardMachine.runSteps 0 2
          { isUploading := true, tasks := [GuardMachine.TaskState.active 1] }
        = some s' ∧ s'.isUploading = false := by
  have h1 : GuardMachine.machineStep GuardMachine.initState (.arrive 1)
      = some { isUploading := false, tasks := [GuardMachine.TaskState.notStarted 1] } := rfl
  have h2 : GuardMachine.machineStep
      { isUploading := false, tasks := [GuardMachine.TaskState.notStarted 1] } (.run 0)
      = some { isUploading := true, tasks := [GuardMachine.TaskState.active 1] } := rfl
  have hreach : GuardMachine.Reaches
      { isUploading := true, tasks := [GuardMachine.TaskState.active 1] } :=
    GuardMachine.Reaches.tail (.run 0)
      (GuardMachine.Reaches.tail (.arrive 1) GuardMachine.Reaches.refl h1) h2
  have H := upload_inflight_guard _ hreach
  exact ⟨H.1, H.2.2.2 0 1 rfl⟩
